import Mathlib

/-!
Shallow embedding of `src/bukaninara.py`, a Streamlit question-answering
script that chunks an uploaded text file per line, embeds the chunks via an
external embedding service, upserts them into an external vector index, and
answers questions by retrieving nearest chunks and calling an external
completion service.

External services (embedding, vector query, completion) are modelled as
oracle functions passed in as parameters; a call that may raise is an
`Except String` value.  Streamlit UI output (`st.error`, `st.warning`,
`st.info`, `st.success`) is modelled as an emitted list of `Msg` values.
Embedding vectors are modelled as `List Int` (the Python code never inspects
the float values; it only tests list truthiness, i.e. non-emptiness).
-/

/-- UI message emitted through Streamlit (`st.error` / `st.warning` /
`st.info` / `st.success`). -/
inductive Msg where
  | error (s : String)
  | warning (s : String)
  | info (s : String)
  | success (s : String)
deriving DecidableEq

/-- Helper for `splitLines`: walks the character list, cutting at every
newline, mirroring Python `str.split("\n")` (which never drops entries and
yields one entry even for the empty string). -/
def splitLinesAux : List Char → List Char → List (List Char)
  | [], acc => [acc.reverse]
  | c :: cs, acc =>
    if c = '\n' then acc.reverse :: splitLinesAux cs []
    else splitLinesAux cs (c :: acc)

/-- Python `s.split("\n")` as used at lines 159 and 203 of the source. -/
def splitLines (s : String) : List String :=
  (splitLinesAux s.data []).map (fun cs => String.mk cs)

/-- Python `str.strip()` (whitespace removed from both ends), used in the
chunking comprehension at line 159. -/
def pyStrip (s : String) : String :=
  String.mk (((s.data.dropWhile Char.isWhitespace).reverse.dropWhile
      Char.isWhitespace).reverse)

/-- Chunking policy of the upload handler (line 159):
`[line.strip() for line in file_content.split('\n') if line.strip()]`. -/
def textsOf (file_content : String) : List String :=
  (splitLines file_content).filterMap
    (fun line => if pyStrip line = "" then none else some (pyStrip line))

/-- Metadata attached to each chunk at ingestion (line 160 of the source):
`{"source": uploaded_file.name, "line": i}`. -/
structure ChunkMeta where
  source : String
  line : Nat
deriving DecidableEq

/-- The metadata list built by the upload handler (line 160):
`[{"source": name, "line": i} for i, _ in enumerate(texts)]` — the element
of the enumeration is discarded, only the index is kept. -/
def metadata_list (name : String) (texts : List String) : List ChunkMeta :=
  (List.range texts.length).map (fun i => ⟨name, i⟩)

/-- Metadata list for an upload, as produced from the raw file content. -/
def metadataOf (name : String) (file_content : String) : List ChunkMeta :=
  metadata_list name (textsOf file_content)

/-- A vector record prepared for upsert (lines 68-72 of the source):
`{"id": f"doc-{time.time()}-{i}", "values": embedding, "metadata": metadata_list[i]}`.
The timestamp `time.time()` is abstracted as the string `now`. -/
structure PineconeVector where
  id : String
  values : List Int
  metadata : ChunkMeta
deriving DecidableEq

/-- The record id built at line 69: `f"doc-{time.time()}-{i}"`. -/
def mkId (now : String) (i : Nat) : String :=
  "doc-" ++ now ++ "-" ++ toString i

/-- The embedding loop of `upsert_to_pinecone` (lines 64-72): walk `texts`
with its enumeration index, call the embedding oracle on each text, and keep
a record only when the result is truthy in Python (a non-`None`, non-empty
list).  `metadata_list.getD i` models `metadata_list[i]` (in the source the
caller always passes lists of equal length, so the index is in range). -/
def vectorsToUpsertAux (embed : String → Option (List Int)) (now : String)
    (ml : List ChunkMeta) : Nat → List String → List PineconeVector
  | _, [] => []
  | i, t :: rest =>
    match embed t with
    | some e =>
      if e.isEmpty then vectorsToUpsertAux embed now ml (i + 1) rest
      else ⟨mkId now i, e, ml.getD i ⟨"", 0⟩⟩ ::
        vectorsToUpsertAux embed now ml (i + 1) rest
    | none => vectorsToUpsertAux embed now ml (i + 1) rest

/-- The `vectors_to_upsert` list built by `upsert_to_pinecone` before the
batch upsert call (lines 64-72). -/
def vectors_to_upsert (embed : String → Option (List Int)) (now : String)
    (texts : List String) (ml : List ChunkMeta) : List PineconeVector :=
  vectorsToUpsertAux embed now ml 0 texts

/-- The function `get_embedding` (lines 32-42): the external embedding call
is the oracle `embedCall`; on success the vector is returned, and when the
call raises, `st.error` is emitted with the exception text and `None` is
returned. -/
def get_embedding (embedCall : String → Except String (List Int))
    (text : String) : Option (List Int) × List Msg :=
  match embedCall text with
  | Except.ok v => (some v, [])
  | Except.error e =>
    (none, [Msg.error ("Gagal mendapatkan embedding: " ++ e)])

/-- The UI messages emitted during the embedding loop of
`upsert_to_pinecone` (lines 65-66): one `get_embedding` error message per
chunk whose embedding call raises, in chunk order. -/
def embedLoopMsgs (embedCall : String → Except String (List Int)) :
    List String → List Msg
  | [] => []
  | t :: rest => (get_embedding embedCall t).2 ++ embedLoopMsgs embedCall rest

/-- The function `upsert_to_pinecone` (lines 44-82), returning the Python
return value paired with the UI messages it emits: the per-chunk
`get_embedding` errors emitted inside the loop (line 66), then the message
of the batch outcome.  The external batch upsert (`index.upsert`, which may
raise) is the oracle `upsertCall`.  Index provisioning (lines 50-60) only
has external effects — creating the index and busy-polling readiness — and
influences neither the return value nor the vector batch, so it is not
modelled. -/
def upsert_to_pinecone (clientPresent : Bool)
    (upsertCall : List PineconeVector → Except String Unit)
    (embedCall : String → Except String (List Int)) (now : String)
    (index_name : String) (texts : List String) (ml : List ChunkMeta) :
    Bool × List Msg :=
  if !clientPresent then
    (false, [Msg.error "Pinecone belum diinisialisasi. Tidak dapat mengunggah."])
  else
    let loopMsgs := embedLoopMsgs embedCall texts
    let vs := vectors_to_upsert (fun t => (get_embedding embedCall t).1)
      now texts ml
    if vs.isEmpty then (false, loopMsgs)
    else
      match upsertCall vs with
      | Except.ok _ =>
        (true, loopMsgs ++ [Msg.success ("Berhasil mengunggah " ++
          toString vs.length ++ " vektor ke Pinecone indeks " ++
          index_name ++ ".")])
      | Except.error e =>
        (false, loopMsgs ++ [Msg.error ("Gagal mengunggah ke Pinecone: " ++ e)])

/-- A nearest-neighbor match as consumed by the chat handler: the record
`id` plus the two metadata fields the code reads, `text`
(`match.metadata['text']`, absent in records this program upserts) and
`line` (`match.metadata.get('line')`). -/
structure QueryMatch where
  id : String
  metaText : Option String
  metaLine : Option Nat
deriving DecidableEq

/-- The function `query_pinecone` (lines 84-103), returning the match list
paired with emitted UI messages.  `existing` models
`pinecone_client.list_indexes().names()`; `embed` the question-embedding
call (`None` on failure); `doQuery` the external `index.query` call (which
may raise). -/
def query_pinecone (clientPresent : Bool) (existing : List String)
    (embed : String → Option (List Int))
    (doQuery : List Int → Nat → Except String (List QueryMatch))
    (index_name query_text : String) (top_k : Nat) :
    List QueryMatch × List Msg :=
  if !clientPresent then
    ([], [Msg.error "Pinecone belum diinisialisasi. Tidak dapat melakukan pencarian."])
  else if index_name ∈ existing then
    match embed query_text with
    | some qe =>
      match doQuery qe top_k with
      | Except.ok ms => (ms, [])
      | Except.error e =>
        ([], [Msg.error ("Gagal melakukan query Pinecone: " ++ e)])
    | none => ([], [])
  else
    ([], [Msg.warning ("Indeks " ++ index_name ++ " tidak ditemukan.")])

/-- A chat message: `{"role": ..., "content": ...}`. -/
structure ChatMsgRec where
  role : String
  content : String
deriving DecidableEq

/-- The fixed apology string returned when the completion call raises
(line 122 of the source). -/
def apology : String :=
  "Maaf, saya tidak bisa menjawab pertanyaan ini saat ini."

/-- The function `get_answer_from_openai` (lines 105-122): build the fixed
system instruction plus the user message embedding context and question,
call the completion oracle, and return the apology string if it raises. -/
def get_answer_from_openai (complete : List ChatMsgRec → Except String String)
    (question context : String) : String :=
  let messages : List ChatMsgRec :=
    [⟨"system", "Anda adalah asisten AI yang cerdas. Jawab pertanyaan berdasarkan konteks yang diberikan."⟩,
     ⟨"user", "Konteks: " ++ context ++ "\n\nPertanyaan: " ++ question⟩]
  match complete messages with
  | Except.ok ans => ans
  | Except.error _ => apology

/-- Per-match context reconstruction in the cache branch of the chat
handler (lines 205-213): `line_num = match.metadata.get('line')`; if it is
present and `< len(all_lines)` take `all_lines[line_num]`; `elif 'text' in
match.metadata` take `match.metadata['text']`; otherwise nothing is
appended for this match.  `getD n ""` models `all_lines[line_num]`, whose
index is guarded to be in range. -/
def reconstructOne (all_lines : List String) (m : QueryMatch) : Option String :=
  match m.metaLine with
  | some n => if n < all_lines.length then some (all_lines.getD n "") else m.metaText
  | none => m.metaText

/-- The `context_texts` list built in the cache branch (lines 204-213):
one pass over the matches, appending per `reconstructOne`. -/
def contextTextsCached (all_lines : List String) (ms : List QueryMatch) :
    List String :=
  ms.filterMap (reconstructOne all_lines)

/-- The `context_texts` list built when the text cache is unavailable
(line 215): `[match.metadata.get('text', match.id) for match in ...]`. -/
def contextTextsNoCache (ms : List QueryMatch) : List String :=
  ms.map (fun m => m.metaText.getD m.id)

/-- Session state (`st.session_state`): the append-only chat history
`messages` and the filename-keyed `text_cache` of raw uploaded contents. -/
structure SessionState where
  messages : List ChatMsgRec
  text_cache : List (String × String)
deriving DecidableEq

/-- Dictionary lookup `st.session_state.text_cache[name]`, combined with
the membership test `name in st.session_state.text_cache`. -/
def lookupCache (cache : List (String × String)) (name : String) :
    Option String :=
  (cache.find? (fun p => p.1 == name)).map (fun p => p.2)

/-- Environment surrounding the chat handler: the three configuration
strings from the sidebar (Python truthiness = non-empty), the Pinecone
client state, the external oracles, the configured index name, and the
currently uploaded file name (`none` models `uploaded_file` being falsy). -/
structure ChatEnv where
  openai_api_key : String
  pinecone_api_key : String
  pinecone_environment : String
  clientPresent : Bool
  existing : List String
  embed : String → Option (List Int)
  doQuery : List Int → Nat → Except String (List QueryMatch)
  complete : List ChatMsgRec → Except String String
  index_name : String
  uploadedFileName : Option String

/-- The `context` string assembled by the chat handler (lines 194-217):
empty when there are no matches; otherwise reconstructed from the text
cache when `uploaded_file` is truthy and `text_cache` holds its name, else
from metadata `text` with the record id as fallback.  (The comprehension at
line 196 is dead code: one of the two later branches always overwrites
`context_texts` when matches exist.) -/
def chatContext (uploadedFileName : Option String)
    (cache : List (String × String)) (results : List QueryMatch) : String :=
  if results.isEmpty then ""
  else
    match uploadedFileName with
    | some name =>
      match lookupCache cache name with
      | some content =>
        String.intercalate "\n" (contextTextsCached (splitLines content) results)
      | none => String.intercalate "\n" (contextTextsNoCache results)
    | none => String.intercalate "\n" (contextTextsNoCache results)

/-- One run of the chat handler (lines 182-227) on a submitted prompt:
append the user turn; if all three configuration values are non-empty,
query Pinecone (top_k = 3), assemble the context, warn when it is empty,
obtain the answer (apology on completion failure) and append it as the
assistant turn; otherwise emit a configuration error and stop.  Returns the
new session state and the emitted messages. -/
def chatStep (env : ChatEnv) (st : SessionState) (prompt : String) :
    SessionState × List Msg :=
  let st1 : SessionState := { st with messages := st.messages ++ [⟨"user", prompt⟩] }
  if env.openai_api_key ≠ "" ∧ env.pinecone_api_key ≠ "" ∧
      env.pinecone_environment ≠ "" then
    let q := query_pinecone env.clientPresent env.existing env.embed env.doQuery
      env.index_name prompt 3
    let context := chatContext env.uploadedFileName st1.text_cache q.1
    let warn : List Msg :=
      if context = "" then
        [Msg.warning "Tidak menemukan konteks yang relevan di database Anda. Akan mencoba menjawab dengan pengetahuan umum OpenAI."]
      else []
    let answer := get_answer_from_openai env.complete prompt context
    ({ st1 with messages := st1.messages ++ [⟨"assistant", answer⟩] },
      q.2 ++ warn)
  else
    (st1, [Msg.error "Harap masukkan semua API Key dan Konfigurasi Pinecone di sidebar."])

/-- Concrete environment for exercising the chat handler when the question
embedding fails: all configuration present, index exists, embedding oracle
always fails, completion oracle returns a fixed distinguishable answer. -/
def envEmbedFail : ChatEnv :=
  ⟨"k", "k", "k", true, ["idx"], fun _ => none, fun _ _ => Except.ok [],
    fun _ => Except.ok "JAWABAN-LLM", "idx", none⟩

/-- Concrete environment in which every completion call raises. -/
def envLLMFail : ChatEnv :=
  ⟨"k", "k", "k", true, ["idx"], fun _ => some [1], fun _ _ => Except.ok [],
    fun _ => Except.error "down", "idx", none⟩

/-- Concrete environment with a missing OpenAI API key. -/
def envNoKey : ChatEnv :=
  ⟨"", "k", "k", true, ["idx"], fun _ => some [1], fun _ _ => Except.ok [],
    fun _ => Except.ok "x", "idx", none⟩

/-- A concrete embedding oracle that fails exactly on the text "a". -/
def embedFailOnA : String → Option (List Int) :=
  fun t => if t = "a" then none else some [5]

/-- Chunk count: the filter-and-strip comprehension keeps exactly the lines
that are non-empty after stripping. -/
theorem length_filterMap_strip (ls : List String) :
    (ls.filterMap
      (fun line => if pyStrip line = "" then none else some (pyStrip line))).length
      = ls.countP (fun l => pyStrip l != "") := by
  induction ls with
  | nil => rfl
  | cons l ls ih =>
    by_cases h : pyStrip l = "" <;>
      simp [List.filterMap_cons, List.countP_cons, h, ih]

/-- A list every element of which is already stripped and non-blank passes
through the chunking comprehension unchanged. -/
theorem filterMap_strip_id (ls : List String)
    (hclean : ∀ l ∈ ls, pyStrip l = l ∧ l ≠ "") :
    ls.filterMap
      (fun line => if pyStrip line = "" then none else some (pyStrip line)) = ls := by
  induction ls with
  | nil => rfl
  | cons l ls ih =>
    obtain ⟨hs, hne⟩ := hclean l (List.mem_cons_self l ls)
    rw [List.filterMap_cons]
    rw [if_neg (by rw [hs]; exact hne)]
    rw [hs, ih (fun x hx => hclean x (List.mem_cons_of_mem l hx))]

/-- Predicate for a Python-truthy embedding result: the call returned a
non-`None`, non-empty vector. -/
def embedOk (embed : String → Option (List Int)) (t : String) : Bool :=
  match embed t with
  | some e => !e.isEmpty
  | none => false

/-- The embedding loop produces one record per truthy embedding result,
whatever the start index. -/
theorem vectorsToUpsertAux_length (embed : String → Option (List Int))
    (now : String) (ml : List ChunkMeta) (texts : List String) :
    ∀ i, (vectorsToUpsertAux embed now ml i texts).length
      = texts.countP (embedOk embed) := by
  induction texts with
  | nil => intro i; rfl
  | cons t rest ih =>
    intro i
    rw [List.countP_cons]
    cases h : embed t with
    | none => simp [vectorsToUpsertAux, h, ih, embedOk]
    | some e =>
      cases e with
      | nil => simp [vectorsToUpsertAux, h, ih, embedOk]
      | cons a as => simp [vectorsToUpsertAux, h, ih, embedOk]

/-- Every record produced by the embedding loop stems from a text whose
embedding call returned a truthy (non-empty) vector. -/
theorem vectorsToUpsertAux_sound (embed : String → Option (List Int))
    (now : String) (ml : List ChunkMeta) (texts : List String) :
    ∀ i v, v ∈ vectorsToUpsertAux embed now ml i texts →
      ∃ t ∈ texts, embed t = some v.values ∧ v.values ≠ [] := by
  induction texts with
  | nil => intro i v hv; cases hv
  | cons t rest ih =>
    intro i v hv
    cases h : embed t with
    | none =>
      rw [vectorsToUpsertAux, h] at hv
      obtain ⟨u, hu, hprop⟩ := ih (i + 1) v hv
      exact ⟨u, List.mem_cons_of_mem t hu, hprop⟩
    | some e =>
      rw [vectorsToUpsertAux, h] at hv
      cases e with
      | nil =>
        simp only [List.isEmpty, if_pos rfl] at hv
        obtain ⟨u, hu, hprop⟩ := ih (i + 1) v hv
        exact ⟨u, List.mem_cons_of_mem t hu, hprop⟩
      | cons a as =>
        simp only [List.isEmpty, Bool.false_eq_true, if_neg] at hv
        rcases List.mem_cons.mp hv with hhead | htail
        · refine ⟨t, List.mem_cons_self t rest, ?_, ?_⟩
          · rw [hhead]; exact h
          · rw [hhead]; simp
        · obtain ⟨u, hu, hprop⟩ := ih (i + 1) v htail
          exact ⟨u, List.mem_cons_of_mem t hu, hprop⟩

/-- A chunk at position `j` whose embedding succeeds with a non-empty
vector is included in the loop output, whatever happened to other chunks. -/
theorem vectorsToUpsertAux_mem (embed : String → Option (List Int))
    (now : String) (ml : List ChunkMeta) (texts : List String) :
    ∀ i j, j < texts.length → ∀ e, embed (texts.getD j "") = some e → e ≠ [] →
      (⟨mkId now (i + j), e, ml.getD (i + j) ⟨"", 0⟩⟩ : PineconeVector)
        ∈ vectorsToUpsertAux embed now ml i texts := by
  induction texts with
  | nil => intro i j hj; exact absurd hj (Nat.not_lt_zero j)
  | cons t rest ih =>
    intro i j hj e he hne
    cases j with
    | zero =>
      have ht : embed t = some e := by simpa using he
      rw [vectorsToUpsertAux, ht]
      cases e with
      | nil => exact absurd rfl hne
      | cons a as => simp
    | succ j =>
      have hmem := ih (i + 1) j (Nat.lt_of_succ_lt_succ hj) e (by simpa using he) hne
      have harith : i + (j + 1) = (i + 1) + j := by omega
      rw [harith]
      cases hemb : embed t with
      | none => rw [vectorsToUpsertAux, hemb]; exact hmem
      | some e2 =>
        cases e2 with
        | nil =>
          rw [vectorsToUpsertAux, hemb]
          exact hmem
        | cons a as =>
          rw [vectorsToUpsertAux, hemb]
          exact List.mem_cons_of_mem _ hmem

/-- When the question embedding fails, `query_pinecone` returns the empty
match list (line 103 of the source), whatever the client and index state. -/
theorem query_pinecone_fst_of_embed_none (clientPresent : Bool)
    (existing : List String) (embed : String → Option (List Int))
    (doQuery : List Int → Nat → Except String (List QueryMatch))
    (index_name query_text : String) (top_k : Nat)
    (hembed : embed query_text = none) :
    (query_pinecone clientPresent existing embed doQuery
      index_name query_text top_k).1 = [] := by
  cases clientPresent
  · rfl
  · by_cases hmem : index_name ∈ existing
    · simp [query_pinecone, hmem, hembed]
    · simp [query_pinecone, hmem]

/-- When every completion call raises, `get_answer_from_openai` returns the
fixed apology string. -/
theorem get_answer_apology_of_fail
    (complete : List ChatMsgRec → Except String String) (q c : String)
    (hfail : ∀ ms, ∃ e, complete ms = Except.error e) :
    get_answer_from_openai complete q c = apology := by
  obtain ⟨e, he⟩ := hfail
    [⟨"system", "Anda adalah asisten AI yang cerdas. Jawab pertanyaan berdasarkan konteks yang diberikan."⟩,
     ⟨"user", "Konteks: " ++ c ++ "\n\nPertanyaan: " ++ q⟩]
  simp only [get_answer_from_openai]
  rw [he]

/-- Shape of the chat history after a configured chat step: the user turn
followed by the assistant turn holding whatever
`get_answer_from_openai` produced on the assembled context. -/
theorem chatStep_configured (env : ChatEnv) (st : SessionState)
    (prompt : String)
    (hkeys : env.openai_api_key ≠ "" ∧ env.pinecone_api_key ≠ "" ∧
      env.pinecone_environment ≠ "") :
    (chatStep env st prompt).1.messages
      = st.messages ++ [⟨"user", prompt⟩,
          ⟨"assistant", get_answer_from_openai env.complete prompt
            (chatContext env.uploadedFileName st.text_cache
              (query_pinecone env.clientPresent env.existing env.embed
                env.doQuery env.index_name prompt 3).1)⟩] := by
  simp only [chatStep]
  rw [if_pos hkeys]
  simp [List.append_assoc]

/-- C1: the claimed round-trip fails on the code.  For the upload
"\napple" the single chunk is "apple" and its stored metadata `line` is 0
(its position in the blank-filtered sequence), yet reconstruction indexes
the unfiltered split of the cached raw text: the cached text has 2 lines,
so `line` 0 is valid, and the reconstructed context text is the blank
original line "" — not the chunk text "apple". -/
theorem C1_round_trip_failure :
    textsOf "\napple" = ["apple"]
  ∧ metadataOf "f.txt" "\napple" = [⟨"f.txt", 0⟩]
  ∧ (splitLines "\napple").length = 2
  ∧ contextTextsCached (splitLines "\napple") [⟨"rec-1", none, some 0⟩] = [""]
  ∧ ("" : String) ≠ "apple" := by decide

/-- C2 counterexample: for the upload "\napple" the chunk "apple" sits at
position 1 of the original line sequence, but its stored metadata `line`
is 0 — its position in the blank-stripped filtered sequence — and original
line 0 is the blank line, not the chunk. -/
theorem C2_counterexample :
    textsOf "\napple" = ["apple"]
  ∧ splitLines "\napple" = ["", "apple"]
  ∧ metadataOf "f.txt" "\napple" = [⟨"f.txt", 0⟩]
  ∧ ((metadataOf "f.txt" "\napple").getD 0 ⟨"", 0⟩).line = 0
  ∧ (splitLines "\napple").getD 0 "" ≠ "apple"
  ∧ (splitLines "\napple").getD 1 "" = "apple" := by decide

/-- C2 amended: the `line` value stored in chunk `i`'s metadata equals `i`,
the chunk's position in the blank-stripped filtered sequence (and the
metadata list has one entry per chunk). -/
theorem C2_line_is_filtered_position (name : String) (file_content : String)
    (i : Nat) (hi : i < (textsOf file_content).length) :
    (metadataOf name file_content).length = (textsOf file_content).length
  ∧ ((metadataOf name file_content).getD i ⟨"", 0⟩).line = i := by
  constructor
  · simp [metadataOf, metadata_list]
  · simp [metadataOf, metadata_list, List.getD_eq_getElem?_getD,
      List.getElem?_map, List.getElem?_range, hi]

/-- C2 amended witness at a concrete upload with a blank line. -/
theorem C2_line_is_filtered_position_witness :
    ((metadataOf "f.txt" "apple\n\nbanana").getD 1 ⟨"", 0⟩).line = 1 :=
  (C2_line_is_filtered_position "f.txt" "apple\n\nbanana" 1 (by decide)).2

/-- C3: the number of chunks equals the number of lines that are non-empty
after stripping surrounding whitespace, and every chunk is non-blank (so a
blank or whitespace-only line never produces a chunk). -/
theorem C3_chunk_count (file_content : String) :
    (textsOf file_content).length
      = (splitLines file_content).countP (fun l => pyStrip l != "")
  ∧ ∀ t ∈ textsOf file_content, t ≠ "" := by
  constructor
  · exact length_filterMap_strip (splitLines file_content)
  · intro t ht
    obtain ⟨l, _, hl⟩ := List.mem_filterMap.mp ht
    by_cases h : pyStrip l = ""
    · rw [if_pos h] at hl; cases hl
    · rw [if_neg h] at hl
      rw [← Option.some_inj.mp hl]
      exact h

/-- C3 witness at a concrete upload containing a blank and a
whitespace-only line. -/
theorem C3_chunk_count_witness :
    (textsOf "apple\n\n  \nbanana").length
      = (splitLines "apple\n\n  \nbanana").countP (fun l => pyStrip l != "")
  ∧ ("apple" : String) ≠ "" :=
  ⟨(C3_chunk_count "apple\n\n  \nbanana").1,
   (C3_chunk_count "apple\n\n  \nbanana").2 "apple" (by decide)⟩

/-- C4 counterexample: with full configuration and an embedding oracle that
always fails, the chat handler still invokes the completion oracle — the
assistant turn records the oracle's genuine answer (not any failure
outcome, and not the apology string). -/
theorem C4_counterexample :
    envEmbedFail.embed "q" = none
  ∧ (chatStep envEmbedFail ⟨[], []⟩ "q").1.messages
      = [⟨"user", "q"⟩, ⟨"assistant", "JAWABAN-LLM"⟩]
  ∧ ("JAWABAN-LLM" : String) ≠ apology := by decide

/-- C4 amended: when the question embedding fails, the query step yields an
empty match list, the context is empty, and the Completion Gateway is still
invoked — the assistant turn records exactly its output on the question
with empty context. -/
theorem C4_embed_failure_still_invokes_llm (env : ChatEnv)
    (st : SessionState) (prompt : String)
    (hkeys : env.openai_api_key ≠ "" ∧ env.pinecone_api_key ≠ "" ∧
      env.pinecone_environment ≠ "")
    (hembed : env.embed prompt = none) :
    (chatStep env st prompt).1.messages
      = st.messages ++ [⟨"user", prompt⟩,
          ⟨"assistant", get_answer_from_openai env.complete prompt ""⟩] := by
  rw [chatStep_configured env st prompt hkeys,
    query_pinecone_fst_of_embed_none env.clientPresent env.existing env.embed
      env.doQuery env.index_name prompt 3 hembed]
  rfl

/-- C4 amended witness at a concrete failing-embedding environment. -/
theorem C4_embed_failure_witness :
    (chatStep envEmbedFail ⟨[], []⟩ "q").1.messages
      = [] ++ [⟨"user", "q"⟩,
          ⟨"assistant", get_answer_from_openai envEmbedFail.complete "q" ""⟩] :=
  C4_embed_failure_still_invokes_llm envEmbedFail ⟨[], []⟩ "q" (by decide) rfl

/-- C5 counterexample: the return value of `upsert_to_pinecone` is `False`
both when every embedding fails (nothing to upload — only the per-chunk
embedding errors are emitted) and when the batch upsert call raises — the
result does not distinguish the two outcomes. -/
theorem C5_counterexample :
    upsert_to_pinecone true (fun _ => Except.ok ())
        (fun _ => Except.error "api down") "t0" "idx" ["a"] [⟨"f", 0⟩]
      = (false, [Msg.error "Gagal mendapatkan embedding: api down"])
  ∧ upsert_to_pinecone true (fun _ => Except.error "boom")
        (fun _ => Except.ok [1]) "t0" "idx" ["a"] [⟨"f", 0⟩]
      = (false, [Msg.error "Gagal mengunggah ke Pinecone: boom"])
  ∧ (upsert_to_pinecone true (fun _ => Except.ok ())
        (fun _ => Except.error "api down") "t0" "idx" ["a"] [⟨"f", 0⟩]).1
    = (upsert_to_pinecone true (fun _ => Except.error "boom")
        (fun _ => Except.ok [1]) "t0" "idx" ["a"] [⟨"f", 0⟩]).1 := by decide

/-- C5 amended: both outcomes return `False`.  The emitted UI messages are
all that differs: on the empty-batch path only the per-chunk embedding
error messages appear (no upsert-related message at all), while a failing
upsert call additionally ends with an upsert error message. -/
theorem C5_result_vs_messages
    (upsertCall : List PineconeVector → Except String Unit)
    (embedCall : String → Except String (List Int)) (now idx : String)
    (texts : List String) (ml : List ChunkMeta) :
    ((vectors_to_upsert (fun t => (get_embedding embedCall t).1)
        now texts ml).isEmpty = true →
      upsert_to_pinecone true upsertCall embedCall now idx texts ml
        = (false, embedLoopMsgs embedCall texts))
  ∧ (∀ e, (vectors_to_upsert (fun t => (get_embedding embedCall t).1)
        now texts ml).isEmpty = false →
      upsertCall (vectors_to_upsert (fun t => (get_embedding embedCall t).1)
        now texts ml) = Except.error e →
      upsert_to_pinecone true upsertCall embedCall now idx texts ml
        = (false, embedLoopMsgs embedCall texts
            ++ [Msg.error ("Gagal mengunggah ke Pinecone: " ++ e)])) := by
  constructor
  · intro hempty
    simp [upsert_to_pinecone, hempty]
  · intro e hnonempty hcall
    simp [upsert_to_pinecone, hnonempty, hcall]

/-- C5 amended witness: an all-failing embedding oracle gives the `False`
empty-batch outcome whose messages are exactly the embedding-loop errors. -/
theorem C5_result_vs_messages_witness :
    upsert_to_pinecone true (fun _ => Except.ok ())
      (fun _ => Except.error "api down") "t0" "idx" ["a"] [⟨"f", 0⟩]
      = (false, embedLoopMsgs (fun _ => Except.error "api down") ["a"]) :=
  (C5_result_vs_messages (fun _ => Except.ok ())
    (fun _ => Except.error "api down") "t0" "idx" ["a"] [⟨"f", 0⟩]).1
    (by decide)

/-- C6: when every completion call raises, the chat step records the fixed
apology string as the assistant turn following the user turn. -/
theorem C6_apology_recorded (env : ChatEnv) (st : SessionState)
    (prompt : String)
    (hkeys : env.openai_api_key ≠ "" ∧ env.pinecone_api_key ≠ "" ∧
      env.pinecone_environment ≠ "")
    (hfail : ∀ ms, ∃ e, env.complete ms = Except.error e) :
    (chatStep env st prompt).1.messages
      = st.messages ++ [⟨"user", prompt⟩, ⟨"assistant", apology⟩] := by
  rw [chatStep_configured env st prompt hkeys,
    get_answer_apology_of_fail env.complete prompt _ hfail]

/-- C6 witness at a concrete environment whose completion oracle always
raises. -/
theorem C6_apology_recorded_witness :
    (chatStep envLLMFail ⟨[], []⟩ "q").1.messages
      = [] ++ [⟨"user", "q"⟩, ⟨"assistant", apology⟩] :=
  C6_apology_recorded envLLMFail ⟨[], []⟩ "q" (by decide)
    (fun _ => ⟨"down", rfl⟩)

/-- C7: querying an index name that is not among the existing indexes
returns the empty match list (not an error outcome), whatever the client
state and oracles. -/
theorem C7_missing_index_empty (clientPresent : Bool)
    (existing : List String) (embed : String → Option (List Int))
    (doQuery : List Int → Nat → Except String (List QueryMatch))
    (index_name query_text : String) (top_k : Nat)
    (habs : index_name ∉ existing) :
    (query_pinecone clientPresent existing embed doQuery
      index_name query_text top_k).1 = [] := by
  cases clientPresent
  · rfl
  · simp [query_pinecone, habs]

/-- C7 witness at a concrete absent index name. -/
theorem C7_missing_index_empty_witness :
    (query_pinecone true ["idx"] (fun _ => some [1])
      (fun _ _ => Except.ok []) "other" "q" 3).1 = [] :=
  C7_missing_index_empty true ["idx"] (fun _ => some [1])
    (fun _ _ => Except.ok []) "other" "q" 3 (by decide)

/-- C8 counterexample: in the cache branch, a match carrying neither a
valid `line` index nor a `text` field contributes nothing at all to the
context — no id-derived placeholder is produced (the id fallback exists
only in the no-cache branch). -/
theorem C8_counterexample :
    contextTextsCached ["alpha"] [⟨"rec-1", none, none⟩] = []
  ∧ contextTextsNoCache [⟨"rec-1", none, none⟩] = ["rec-1"] := by decide

/-- C8 amended: per-match precedence of context reconstruction.  With the
cache: a valid `line` index wins and yields the cached line; otherwise a
`text` field is used; otherwise the match is dropped.  Without the cache: a
`text` field is used with the raw record id as fallback.  Matches
contribute independently and in order. -/
theorem C8_reconstruction_precedence (all_lines : List String)
    (m : QueryMatch) :
    (∀ n, m.metaLine = some n → n < all_lines.length →
      contextTextsCached all_lines [m] = [all_lines.getD n ""])
  ∧ (∀ t, m.metaText = some t →
      (m.metaLine = none ∨ ∀ n, m.metaLine = some n → all_lines.length ≤ n) →
      contextTextsCached all_lines [m] = [t])
  ∧ (m.metaText = none →
      (m.metaLine = none ∨ ∀ n, m.metaLine = some n → all_lines.length ≤ n) →
      contextTextsCached all_lines [m] = [])
  ∧ contextTextsNoCache [m] = [m.metaText.getD m.id]
  ∧ ∀ ms, contextTextsCached all_lines (m :: ms)
      = contextTextsCached all_lines [m] ++ contextTextsCached all_lines ms := by
  refine ⟨?_, ?_, ?_, rfl, ?_⟩
  · intro n hn hlt
    simp [contextTextsCached, reconstructOne, hn, hlt]
  · intro t ht hcase
    cases hm : m.metaLine with
    | none => simp [contextTextsCached, reconstructOne, hm, ht]
    | some n =>
      have hge : all_lines.length ≤ n := by
        rcases hcase with h | h
        · rw [hm] at h; cases h
        · exact h n hm
      simp [contextTextsCached, reconstructOne, hm, ht, Nat.not_lt.mpr hge]
  · intro ht hcase
    cases hm : m.metaLine with
    | none => simp [contextTextsCached, reconstructOne, hm, ht]
    | some n =>
      have hge : all_lines.length ≤ n := by
        rcases hcase with h | h
        · rw [hm] at h; cases h
        · exact h n hm
      simp [contextTextsCached, reconstructOne, hm, ht, Nat.not_lt.mpr hge]
  · intro ms
    cases h : reconstructOne all_lines m <;>
      simp [contextTextsCached, List.filterMap_cons, h]

/-- C8 amended witness: a valid `line` index recovers the cached line. -/
theorem C8_reconstruction_precedence_witness :
    contextTextsCached ["alpha", "beta"] [⟨"rec-1", none, some 1⟩] = ["beta"] :=
  (C8_reconstruction_precedence ["alpha", "beta"]
    ⟨"rec-1", none, some 1⟩).1 1 rfl (by decide)

/-- C9: the upsert batch holds exactly one record per chunk whose embedding
call returned a truthy vector; every record in the batch stems from a
successfully embedded chunk (so a failed chunk is never upserted); and a
chunk embedded successfully is included regardless of failures elsewhere in
the batch. -/
theorem C9_skip_failed_chunks (embed : String → Option (List Int))
    (now : String) (texts : List String) (ml : List ChunkMeta) :
    (vectors_to_upsert embed now texts ml).length
      = texts.countP (embedOk embed)
  ∧ (∀ v ∈ vectors_to_upsert embed now texts ml,
      ∃ t ∈ texts, embed t = some v.values ∧ v.values ≠ [])
  ∧ ∀ j, j < texts.length → ∀ e, embed (texts.getD j "") = some e → e ≠ [] →
      (⟨mkId now j, e, ml.getD j ⟨"", 0⟩⟩ : PineconeVector)
        ∈ vectors_to_upsert embed now texts ml := by
  refine ⟨vectorsToUpsertAux_length embed now ml texts 0,
    fun v hv => vectorsToUpsertAux_sound embed now ml texts 0 v hv,
    fun j hj e he hne => ?_⟩
  have h := vectorsToUpsertAux_mem embed now ml texts 0 j hj e he hne
  simpa using h

/-- C9 witness: with an oracle failing exactly on the first chunk, the
second chunk is still embedded and included in the batch. -/
theorem C9_skip_failed_chunks_witness :
    (⟨mkId "t0" 1, [5], ChunkMeta.mk "f" 1⟩ : PineconeVector)
      ∈ vectors_to_upsert embedFailOnA "t0" ["a", "b"] [⟨"f", 0⟩, ⟨"f", 1⟩] :=
  (C9_skip_failed_chunks embedFailOnA "t0" ["a", "b"]
    [⟨"f", 0⟩, ⟨"f", 1⟩]).2.2 1 (by decide) [5] (by decide) (by decide)

/-- C10: when any of the three configuration values is missing, a submitted
question appends the user turn and nothing else — the history gains exactly
one entry, leaving an unanswered user turn, and only the configuration
error is emitted. -/
theorem C10_config_missing_one_entry (env : ChatEnv) (st : SessionState)
    (prompt : String)
    (hmiss : env.openai_api_key = "" ∨ env.pinecone_api_key = "" ∨
      env.pinecone_environment = "") :
    (chatStep env st prompt).1.messages = st.messages ++ [⟨"user", prompt⟩]
  ∧ (chatStep env st prompt).1.messages.length = st.messages.length + 1
  ∧ (chatStep env st prompt).2
      = [Msg.error "Harap masukkan semua API Key dan Konfigurasi Pinecone di sidebar."] := by
  have hneg : ¬(env.openai_api_key ≠ "" ∧ env.pinecone_api_key ≠ "" ∧
      env.pinecone_environment ≠ "") := by
    rcases hmiss with h | h | h <;> simp [h]
  simp only [chatStep]
  rw [if_neg hneg]
  simp

/-- C10 witness at a concrete environment with an empty OpenAI API key. -/
theorem C10_config_missing_witness :
    (chatStep envNoKey ⟨[], []⟩ "q").1.messages = [] ++ [⟨"user", "q"⟩] :=
  (C10_config_missing_one_entry envNoKey ⟨[], []⟩ "q" (Or.inl rfl)).1
